import Mathlib

/-
Verification development for the pytube `Video` model
(src/pytube/models.py): a media descriptor together with a chunked
streaming download to a local file (`Video.download`) or to an S3
bucket (`Video.download_s3`), plus the ordering used for sorting
descriptors (`Video.__lt__`).

The Python code is shallowly embedded as pure Lean functions.  External
effects (filesystem, network response, S3, the KeyboardInterrupt signal)
are modelled as explicit inputs, and every externally observable event
(reads from the response stream, writes to the sink, progress and finish
callback invocations) is recorded in an outcome record.
-/

namespace PyTube

/-- Byte strings are modelled as lists of naturals. -/
abbrev Bytes := List Nat

/-- The `Video` class: the nine constructor attributes of
`Video.__init__` (models.py lines 20-52) plus the two transient
attributes `_bytes_received` and `_buffer` that the download loops
assign onto the object (they may be absent before the first download,
hence `Option`). -/
structure Video where
  url : String
  filename : String
  extension : String
  resolution : Option String
  video_codec : Option String
  profile : Option String
  video_bitrate : Option String
  audio_codec : Option String
  audio_bitrate : Option String
  bytes_received_attr : Option Nat
  buffer_attr : Option Bytes
deriving DecidableEq

/-- The nine constructor attributes of a `Video`, bundled so that frame
conditions can state that a transfer leaves all of them unchanged. -/
def Video.core (v : Video) :
    String × String × String × Option String × Option String ×
      Option String × Option String × Option String × Option String :=
  (v.url, v.filename, v.extension, v.resolution, v.video_codec,
   v.profile, v.video_bitrate, v.audio_codec, v.audio_bitrate)

/-- Python string interpolation of an optional string: `None` renders
as the four-character string None. -/
def pyStrOfOpt : Option String → String
  | some s => s
  | none => "None"

/-- The composite sort key built by `Video.__lt__` (models.py line
210-211): the extension and the rendered resolution joined by a
space. -/
def Video.sortKey (v : Video) : String :=
  v.extension ++ " " ++ pyStrOfOpt v.resolution

/-- Python string less-than: lexicographic comparison by code point,
i.e. the lexicographic order on the character lists. -/
def pyStrLt (a b : String) : Bool :=
  decide (a.data < b.data)

/-- Python three-way comparison `(v1 > v2) - (v1 < v2)` on strings,
where `v1 > v2` means `v2 < v1`. -/
def pyCmp (a b : String) : Int :=
  (if pyStrLt b a then 1 else 0) - (if pyStrLt a b then 1 else 0)

/-- `Video.__lt__` (models.py lines 202-212): compare the two rendered
sort keys and test whether the three-way comparison is negative. -/
def Video.lt (a b : Video) : Bool :=
  decide (pyCmp a.sortKey b.sortKey < 0)

/-- Split a character list on the slash character, mirroring Python
`path.split(sep)` for a one-character separator. -/
def splitSlash (acc : List Char) : List Char → List (List Char)
  | [] => [acc.reverse]
  | c :: rest =>
    if c = '/' then acc.reverse :: splitSlash [] rest
    else splitSlash (c :: acc) rest

/-- The `initial_slashes` computation of `posixpath.normpath`: one or
two leading slashes are preserved, three or more collapse to one. -/
def initSlashCount : List Char → Nat
  | '/' :: '/' :: '/' :: _ => 1
  | '/' :: '/' :: _ => 2
  | '/' :: _ => 1
  | _ => 0

/-- The component-processing loop of `posixpath.normpath`.  `acc` holds
the accepted components in reverse order (so the Python `new_comps[-1]`
is `acc.head?`, and `pop` is `tail`). -/
def normLoop (k : Nat) (acc : List (List Char)) :
    List (List Char) → List (List Char)
  | [] => acc
  | c :: rest =>
    if c = [] ∨ c = ['.'] then normLoop k acc rest
    else if c ≠ ['.', '.'] ∨ (k = 0 ∧ acc = []) ∨ acc.head? = some ['.', '.'] then
      normLoop k (c :: acc) rest
    else if acc ≠ [] then normLoop k acc.tail rest
    else normLoop k acc rest

/-- Join components with slashes, mirroring `sep.join(comps)`. -/
def intercalateSlash : List (List Char) → List Char
  | [] => []
  | [x] => x
  | x :: xs => x ++ '/' :: intercalateSlash xs

/-- `posixpath.normpath` on a character list. -/
def normpathList (l : List Char) : List Char :=
  if l = [] then ['.']
  else
    let k := initSlashCount l
    let comps := splitSlash [] l
    let joined := intercalateSlash ((normLoop k [] comps).reverse)
    let p := List.replicate k '/' ++ joined
    if p = [] then ['.'] else p

/-- `os.path.normpath`, as used at models.py line 73. -/
def normpath (s : String) : String :=
  String.mk (normpathList s.data)

/-- `os.path.join(a, b)` for POSIX paths, as used at models.py line 76
and line 151. -/
def pathJoin (a b : String) : String :=
  if b.data.head? = some '/' then b
  else if a.data = [] ∨ a.data.getLast? = some '/' then a ++ b
  else a ++ "/" ++ b

/-- The local filesystem the download interacts with: a set of
directory paths and a map from file paths to contents (as an
association list). -/
structure FS where
  dirs : List String
  files : List (String × Bytes)
deriving DecidableEq

/-- `os.path.isdir`. -/
def FS.isdir (fs : FS) (p : String) : Bool :=
  fs.dirs.contains p

/-- `os.path.isfile`. -/
def FS.isfile (fs : FS) (p : String) : Bool :=
  (fs.files.lookup p).isSome

/-- Writing a file: `open(path, wb)` followed by the writes performed
before the handle is closed; any previous entry for the path is
replaced. -/
def FS.setFile (fs : FS) (p : String) (c : Bytes) : FS :=
  { fs with files := (p, c) :: fs.files.filter (fun e => e.1 != p) }

/-- `os.remove`. -/
def FS.removeFile (fs : FS) (p : String) : FS :=
  { fs with files := fs.files.filter (fun e => e.1 != p) }

/-- What `urlopen(self.url)` yields: the response header items (an
association list, later turned into a dict where a duplicate key keeps
its last value) and the full byte stream, of which `response.read(n)`
returns successive prefixes of at most `n` bytes. -/
structure Response where
  meta : List (String × String)
  body : Bytes
deriving DecidableEq

/-- `dict(items).get(k)`: building a Python dict from an item list
keeps the last occurrence of each key, so look the key up in the
reversed list. -/
def dictGet (m : List (String × String)) (k : String) : Option String :=
  m.reverse.lookup k

/-- The expression of models.py lines 85-86 and 161-162:
`meta_data.get(Content-Length) or meta_data.get(content-length)`.
Python `or` falls through on a falsy left operand, i.e. on `None` and
on the empty string. -/
def contentLengthRaw (m : List (String × String)) : Option String :=
  match dictGet m "Content-Length" with
  | some s => if s = "" then dictGet m "content-length" else some s
  | none => dictGet m "content-length"

/-- Accumulator for nonnegative decimal parsing. -/
def parseDigitsAux (acc : Nat) : List Char → Option Nat
  | [] => some acc
  | c :: rest =>
    if c.isDigit then parseDigitsAux (acc * 10 + (c.toNat - 48)) rest
    else none

/-- Python `int(s)` for nonnegative decimal strings; `none` models the
`ValueError` raised on a malformed or empty string. -/
def pyIntNat (s : String) : Option Nat :=
  match s.data with
  | [] => none
  | l => parseDigitsAux 0 l

/-- `int(meta_data.get(Content-Length) or meta_data.get(content-length))`:
`none` models the `TypeError` raised by `int(None)` when neither header
spelling is present, or the `ValueError` on a non-numeric value. -/
def contentLengthVal (m : List (String × String)) : Option Nat :=
  (contentLengthRaw m).bind pyIntNat

/-- The failure modes of `Video.download`. -/
inductive DlError where
  /-- The `OSError` of models.py line 81: destination exists and
  overwrite was not forced. -/
  | conflict
  /-- The `TypeError` or `ValueError` raised by `int(...)` at models.py
  lines 85-86 when no usable content-length header is present. -/
  | sizeCrash
  /-- The re-raised `KeyboardInterrupt` of models.py lines 109-115. -/
  | interrupted
deriving DecidableEq

/-- Everything observable about one `Video.download` call. -/
structure DlOutcome where
  result : Option DlError
  video : Video
  fs : FS
  resolvedPath : String
  urlOpened : Bool
  fileSize : Option Nat
  readResults : List Nat
  progressCalls : List (Nat × Nat)
  finishCalls : List String
deriving DecidableEq

/-- State threaded through the chunked copy loop: the video object (the
loop assigns `_buffer` and `_bytes_received` onto it), the bytes written
to the sink so far, and the recorded observable events. -/
structure LoopSt where
  video : Video
  written : Bytes
  readResults : List Nat
  progressCalls : List (Nat × Nat)
  finishCalls : List String
deriving DecidableEq

/-- The chunked copy loop shared by models.py lines 93-107 and lines
169-184: read up to `cs` bytes, store them in `_buffer`, and either
finish (empty read; the local variant invokes `on_finish`, the S3
variant has the call commented out, selected by `noop`) or accumulate
`_bytes_received`, write the chunk, invoke `on_progress`, and continue.
`intr` is the iteration index before whose read a `KeyboardInterrupt`
arrives, if any; the second component of the value is true when the
loop was interrupted.  `fuel` is an upper bound on the number of
iterations; callers pass `stream.length + 1`, which always suffices. -/
def copyLoop (cs fsz : Nat) (onp onf noop : Bool) (path : String)
    (intr : Option Nat) : Nat → Nat → Bytes → LoopSt → LoopSt × Bool
  | 0, _, _, st => (st, false)
  | fuel + 1, iter, stream, st =>
    if intr = some iter then (st, true)
    else if (stream.take cs).isEmpty then
      if onf && !noop then
        ({ st with
            readResults := st.readResults ++ [(stream.take cs).length],
            video := { st.video with buffer_attr := some (stream.take cs) },
            finishCalls := st.finishCalls ++ [path] }, false)
      else
        ({ st with
            readResults := st.readResults ++ [(stream.take cs).length],
            video := { st.video with buffer_attr := some (stream.take cs) } },
         false)
    else
      copyLoop cs fsz onp onf noop path intr fuel (iter + 1) (stream.drop cs)
        { video := { st.video with
            buffer_attr := some (stream.take cs),
            bytes_received_attr :=
              some (st.video.bytes_received_attr.getD 0 + (stream.take cs).length) },
          written := st.written ++ stream.take cs,
          readResults := st.readResults ++ [(stream.take cs).length],
          progressCalls :=
            if onp then
              st.progressCalls ++
                [(st.video.bytes_received_attr.getD 0 + (stream.take cs).length, fsz)]
            else st.progressCalls,
          finishCalls := st.finishCalls }

/-- Destination resolution, models.py lines 73-76: normalize the given
path, and when it names a directory, join it with
`self.filename + dot + self.extension`. -/
def resolveDest (fs : FS) (v : Video) (path : String) : String :=
  let p := normpath path
  if fs.isdir p then pathJoin p (v.filename ++ "." ++ v.extension) else p

/-- `Video.download` (models.py lines 54-115).  Inputs beyond the
Python parameters: `fs` is the local filesystem, `resp` is what
`urlopen(self.url)` returns, and `intr` injects a `KeyboardInterrupt`
before the read of the given loop iteration.  The callbacks
`on_progress` and `on_finish` are booleans saying whether they were
supplied; their invocations are recorded in the outcome. -/
def Video.download (v : Video) (fs : FS) (resp : Response)
    (intr : Option Nat) (path : String) (chunk_size : Nat)
    (on_progress on_finish force_overwrite : Bool) : DlOutcome :=
  let path2 := resolveDest fs v path
  if fs.isfile path2 && !force_overwrite then
    { result := some DlError.conflict, video := v, fs := fs,
      resolvedPath := path2, urlOpened := false, fileSize := none,
      readResults := [], progressCalls := [], finishCalls := [] }
  else
    match contentLengthVal resp.meta with
    | none =>
      { result := some DlError.sizeCrash, video := v, fs := fs,
        resolvedPath := path2, urlOpened := true, fileSize := none,
        readResults := [], progressCalls := [], finishCalls := [] }
    | some file_size =>
      match copyLoop chunk_size file_size on_progress on_finish false path2
          intr (resp.body.length + 1) 0 resp.body
          { video := { v with bytes_received_attr := some 0 },
            written := [], readResults := [], progressCalls := [],
            finishCalls := [] } with
      | (st, true) =>
        { result := some DlError.interrupted, video := st.video,
          fs := (fs.setFile path2 st.written).removeFile path2,
          resolvedPath := path2, urlOpened := true,
          fileSize := some file_size, readResults := st.readResults,
          progressCalls := st.progressCalls, finishCalls := st.finishCalls }
      | (st, false) =>
        { result := none, video := st.video,
          fs := fs.setFile path2 st.written, resolvedPath := path2,
          urlOpened := true, fileSize := some file_size,
          readResults := st.readResults, progressCalls := st.progressCalls,
          finishCalls := st.finishCalls }

/-- The S3 service as the code sees it: whether
`s3_connection.get_bucket(s3_bucket_name)` succeeds, and the objects
stored in the bucket, keyed by object key path. -/
structure S3State where
  bucketExists : Bool
  objects : List (String × Bytes)
deriving DecidableEq

/-- Writing an object through the `s3open` handle. -/
def S3State.setObject (s : S3State) (k : String) (c : Bytes) : S3State :=
  { s with objects := (k, c) :: s.objects.filter (fun e => e.1 != k) }

/-- `video_key.delete()`. -/
def S3State.removeObject (s : S3State) (k : String) : S3State :=
  { s with objects := s.objects.filter (fun e => e.1 != k) }

/-- How a `Video.download_s3` call ends. -/
inductive S3Result where
  /-- The bucket lookup raised; the function prints a message and
  returns the pair `(None, None)` (models.py lines 152-156). -/
  | bucketNotFound
  /-- Normal completion returning `(s3_bucket_name, video_key_path)`. -/
  | ok (bucket key : String)
  /-- `int(...)` crash on a missing content-length header. -/
  | sizeCrash
  /-- The re-raised `KeyboardInterrupt` of models.py lines 189-195. -/
  | interrupted
deriving DecidableEq

/-- Everything observable about one `Video.download_s3` call. -/
structure S3Outcome where
  result : S3Result
  video : Video
  s3 : S3State
  keyPath : String
  urlOpened : Bool
  writeHandleOpened : Bool
  fileSize : Option Nat
  readResults : List Nat
  progressCalls : List (Nat × Nat)
  finishCalls : List String
  aclSet : Option String
deriving DecidableEq

/-- `Video.download_s3` (models.py lines 117-195).  The key path is
`filename + dot + extension`, prefixed with `video_dir` when that is
non-empty; a missing bucket returns `(None, None)` before the url is
ever opened; the copy loop is the same as the local one except that the
`on_finish` invocation is commented out (`noop := true`); on success the
ACL is applied and the pair returned; on interrupt the partial object is
deleted and the interrupt re-raised. -/
def Video.download_s3 (v : Video) (s3 : S3State) (resp : Response)
    (intr : Option Nat) (s3_bucket_name video_dir : String)
    (chunk_size : Nat) (on_progress on_finish : Bool)
    (acl_permission : String) : S3Outcome :=
  let key0 := v.filename ++ "." ++ v.extension
  let video_key_path := if video_dir ≠ "" then pathJoin video_dir key0 else key0
  if !s3.bucketExists then
    { result := S3Result.bucketNotFound, video := v, s3 := s3,
      keyPath := video_key_path, urlOpened := false,
      writeHandleOpened := false, fileSize := none, readResults := [],
      progressCalls := [], finishCalls := [], aclSet := none }
  else
    match contentLengthVal resp.meta with
    | none =>
      { result := S3Result.sizeCrash, video := v, s3 := s3,
        keyPath := video_key_path, urlOpened := true,
        writeHandleOpened := false, fileSize := none, readResults := [],
        progressCalls := [], finishCalls := [], aclSet := none }
    | some file_size =>
      match copyLoop chunk_size file_size on_progress on_finish true
          video_key_path intr (resp.body.length + 1) 0 resp.body
          { video := { v with bytes_received_attr := some 0 },
            written := [], readResults := [], progressCalls := [],
            finishCalls := [] } with
      | (st, true) =>
        { result := S3Result.interrupted, video := st.video,
          s3 := s3.removeObject video_key_path, keyPath := video_key_path,
          urlOpened := true, writeHandleOpened := true,
          fileSize := some file_size, readResults := st.readResults,
          progressCalls := st.progressCalls, finishCalls := st.finishCalls,
          aclSet := none }
      | (st, false) =>
        { result := S3Result.ok s3_bucket_name video_key_path,
          video := st.video,
          s3 := s3.setObject video_key_path st.written,
          keyPath := video_key_path, urlOpened := true,
          writeHandleOpened := true, fileSize := some file_size,
          readResults := st.readResults, progressCalls := st.progressCalls,
          finishCalls := st.finishCalls, aclSet := some acl_permission }

/-- The lengths returned by the successive reads of the copy loop on a
stream of `n` bytes with chunk size `cs`, including the final zero
returned by the read that signals exhaustion. -/
def natChunksF (cs : Nat) : Nat → Nat → List Nat
  | 0, _ => []
  | fuel + 1, n =>
    if min cs n = 0 then [0] else min cs n :: natChunksF cs fuel (n - cs)

/-- The `(bytes_received, file_size)` pairs passed to the successive
`on_progress` invocations, starting from counter value `br`, on a
stream of `n` bytes with chunk size `cs`. -/
def progListF (cs fsz : Nat) : Nat → Nat → Nat → List (Nat × Nat)
  | 0, _, _ => []
  | fuel + 1, br, n =>
    if min cs n = 0 then []
    else (br + min cs n, fsz) :: progListF cs fsz fuel (br + min cs n) (n - cs)

/-- Concrete descriptor used by witnesses: the scenario descriptor with
baseName clip and extension mp4. -/
def vClip : Video :=
  ⟨"http://x/v", "clip", "mp4", none, none, none, none, none, none, none, none⟩

/-- Concrete descriptor with extension avi, for ordering witnesses. -/
def vAvi : Video :=
  ⟨"u1", "f1", "avi", some "480p", none, none, none, none, none, none, none⟩

/-- Concrete descriptor with extension mp4, for ordering witnesses. -/
def vMp4 : Video :=
  ⟨"u2", "f2", "mp4", none, none, none, none, none, none, none, none⟩

/-- Concrete descriptor with extension webm, for ordering witnesses. -/
def vWebm : Video :=
  ⟨"u3", "f3", "webm", some "720p", none, none, none, none, none, none, none⟩

/-- The filesystem of the 20000-byte scenario: the destination
directory exists and is empty. -/
def fsTmpOut : FS := ⟨["/tmp/out"], []⟩

/-- The response of the 20000-byte scenario: an advertised content
length of 20000 and a stream of 20000 bytes. -/
def respBig : Response := ⟨[("Content-Length", "20000")], List.replicate 20000 0⟩

theorem lookup_filter_ne {β : Type} (l : List (String × β)) (p : String) :
    (l.filter (fun e => e.1 != p)).lookup p = none := by
  induction l with
  | nil => rfl
  | cons e t ih =>
    obtain ⟨a, b⟩ := e
    rw [List.filter_cons]
    by_cases h : a = p
    · rw [if_neg (by simp [h])]
      exact ih
    · rw [if_pos (by simp [h])]
      rw [List.lookup]
      rw [show (p == a) = false by simpa using Ne.symm h]
      exact ih

theorem lookup_append_ne {β : Type} (l : List (String × β)) (k : String)
    (val : β) (key : String) (h : k ≠ key) :
    (l ++ [(k, val)]).lookup key = l.lookup key := by
  induction l with
  | nil =>
    rw [List.nil_append]
    simp only [List.lookup]
    rw [show (key == k) = false by simpa using Ne.symm h]
  | cons e t ih =>
    obtain ⟨a, b⟩ := e
    rw [List.cons_append, List.lookup, List.lookup]
    cases key == a
    · exact ih
    · rfl

theorem setFile_lookup_self (fs : FS) (p : String) (c : Bytes) :
    (fs.setFile p c).files.lookup p = some c := by
  simp [FS.setFile, List.lookup]

theorem removeFile_lookup_self (fs : FS) (p : String) :
    (fs.removeFile p).files.lookup p = none := by
  simpa [FS.removeFile] using lookup_filter_ne fs.files p

theorem removeObject_lookup_self (s : S3State) (k : String) :
    (s.removeObject k).objects.lookup k = none := by
  simpa [S3State.removeObject] using lookup_filter_ne s.objects k

/-- Without an injected interrupt the copy loop never reports an
interruption. -/
theorem copyLoop_intr_none (cs fsz : Nat) (onp onf noop : Bool)
    (path : String) :
    ∀ fuel iter stream st,
      (copyLoop cs fsz onp onf noop path none fuel iter stream st).2 = false := by
  intro fuel
  induction fuel with
  | zero => intro iter stream st; rfl
  | succ fuel ih =>
    intro iter stream st
    rw [copyLoop]
    simp only [reduceCtorEq, if_false]
    by_cases h : (stream.take cs).isEmpty
    · rw [if_pos h]
      by_cases h2 : (onf && !noop) = true
      · rw [if_pos h2]
      · rw [if_neg h2]
    · rw [if_neg h]
      exact ih _ _ _

/-- The copy loop never changes the nine constructor attributes of the
descriptor. -/
theorem copyLoop_video_core (cs fsz : Nat) (onp onf noop : Bool)
    (path : String) (intr : Option Nat) :
    ∀ fuel iter stream st,
      ((copyLoop cs fsz onp onf noop path intr fuel iter stream st).1).video.core
        = st.video.core := by
  intro fuel
  induction fuel with
  | zero => intro iter stream st; rfl
  | succ fuel ih =>
    intro iter stream st
    rw [copyLoop]
    by_cases hi : intr = some iter
    · rw [if_pos hi]
    · rw [if_neg hi]
      by_cases h : (stream.take cs).isEmpty
      · rw [if_pos h]
        by_cases h2 : (onf && !noop) = true
        · rw [if_pos h2]; rfl
        · rw [if_neg h2]; rfl
      · rw [if_neg h]
        rw [ih]
        rfl

/-- With the finish call disabled (the S3 variant) the loop never
appends to `finishCalls`, on any exit. -/
theorem copyLoop_noop_finish (cs fsz : Nat) (onp onf : Bool)
    (path : String) (intr : Option Nat) :
    ∀ fuel iter stream st,
      ((copyLoop cs fsz onp onf true path intr fuel iter stream st).1).finishCalls
        = st.finishCalls := by
  intro fuel
  induction fuel with
  | zero => intro iter stream st; rfl
  | succ fuel ih =>
    intro iter stream st
    rw [copyLoop]
    by_cases hi : intr = some iter
    · rw [if_pos hi]
    · rw [if_neg hi]
      by_cases h : (stream.take cs).isEmpty
      · rw [if_pos h]
        simp only [Bool.not_true, Bool.and_false, Bool.false_eq_true, if_false]
      · rw [if_neg h]
        rw [ih]

/-- If the copy loop ran to normal completion, `on_finish` was invoked
exactly once with the destination (when supplied and not disabled) and
never otherwise. -/
theorem copyLoop_false_finish (cs fsz : Nat) (onp onf noop : Bool)
    (path : String) (intr : Option Nat) :
    ∀ fuel stream iter st st',
      stream.length < fuel →
      copyLoop cs fsz onp onf noop path intr fuel iter stream st = (st', false) →
      st'.finishCalls
        = st.finishCalls ++ (if onf && !noop then [path] else []) := by
  intro fuel
  induction fuel with
  | zero =>
    intro stream iter st st' hlen
    exact absurd hlen (Nat.not_lt_zero _)
  | succ fuel ih =>
    intro stream iter st st' hlen hrun
    rw [copyLoop] at hrun
    by_cases hi : intr = some iter
    · rw [if_pos hi] at hrun
      exact absurd (congrArg Prod.snd hrun) (by simp)
    · rw [if_neg hi] at hrun
      by_cases h : (stream.take cs).isEmpty
      · rw [if_pos h] at hrun
        by_cases h2 : (onf && !noop) = true
        · rw [if_pos h2] at hrun
          injection hrun with h1 _
          subst h1
          rw [if_pos h2]
        · rw [if_neg h2] at hrun
          injection hrun with h1 _
          subst h1
          rw [if_neg h2]
          simp
      · rw [if_neg h] at hrun
        have hcs : cs ≠ 0 ∧ stream ≠ [] := by
          rw [List.isEmpty_iff] at h
          rcases List.take_eq_nil_iff.not.mp h with h'
          push_neg at h'
          exact h'
        have hlt : (stream.drop cs).length < fuel := by
          rw [List.length_drop]
          have h1 : 1 ≤ stream.length :=
            Nat.one_le_iff_ne_zero.mpr (fun hh => hcs.2 (List.length_eq_zero.mp hh))
          have h2 : 1 ≤ cs := Nat.one_le_iff_ne_zero.mpr hcs.1
          omega
        have := ih _ _ _ _ hlt hrun
        simpa using this

/-- Characterization of a copy-loop run that ends in normal completion
(with positive chunk size and sufficient fuel): the whole stream is
written, the reads return the chunk lengths followed by a final zero,
the progress calls carry the running byte counts, the finish callback
fires once exactly in the local variant, and on the video object the
byte counter advances by the stream length while the last buffer is the
empty final read. -/
theorem copyLoop_spec (cs fsz : Nat) (onp onf noop : Bool) (path : String)
    (intr : Option Nat) :
    ∀ fuel stream iter (st : LoopSt) (b : Nat) (st' : LoopSt),
      st.video.bytes_received_attr = some b →
      stream.length < fuel → 0 < cs →
      copyLoop cs fsz onp onf noop path intr fuel iter stream st = (st', false) →
      st'.written = st.written ++ stream ∧
      st'.readResults = st.readResults ++ natChunksF cs fuel stream.length ∧
      st'.progressCalls = st.progressCalls ++
        (if onp then progListF cs fsz fuel b stream.length else []) ∧
      st'.finishCalls = st.finishCalls ++ (if onf && !noop then [path] else []) ∧
      st'.video = { st.video with
        bytes_received_attr := some (b + stream.length),
        buffer_attr := some ([] : Bytes) } := by
  intro fuel
  induction fuel with
  | zero =>
    intro stream iter st b st' hb hlen
    exact absurd hlen (Nat.not_lt_zero _)
  | succ fuel ih =>
    intro stream iter st b st' hb hlen hcs hrun
    obtain ⟨sv, w0, rr0, pc0, fc0⟩ := st
    obtain ⟨u, fn, ex, rs, vc, pf, vb, ac, ab, bra, bfa⟩ := sv
    simp only [LoopSt.mk.injEq] at hb ⊢
    rw [copyLoop] at hrun
    by_cases hi : intr = some iter
    · rw [if_pos hi] at hrun
      exact absurd (congrArg Prod.snd hrun) (by simp)
    · rw [if_neg hi] at hrun
      by_cases h : (stream.take cs).isEmpty
      · have hstream : stream = [] := by
          rw [List.isEmpty_iff] at h
          rcases List.take_eq_nil_iff.mp h with h' | h'
          · omega
          · exact h'
        subst hstream
        rw [if_pos h] at hrun
        subst hb
        by_cases h2 : (onf && !noop) = true
        · rw [if_pos h2] at hrun
          injection hrun with h1 _
          subst h1
          rw [if_pos h2]
          simp [natChunksF, progListF]
        · rw [if_neg h2] at hrun
          injection hrun with h1 _
          subst h1
          rw [if_neg h2]
          simp [natChunksF, progListF]
      · rw [if_neg h] at hrun
        have hne : cs ≠ 0 ∧ stream ≠ [] := by
          rw [List.isEmpty_iff] at h
          have h' := List.take_eq_nil_iff.not.mp h
          push_neg at h'
          exact h'
        have hL1 : 1 ≤ stream.length :=
          Nat.one_le_iff_ne_zero.mpr
            (fun hh => hne.2 (List.length_eq_zero.mp hh))
        have hlt : (stream.drop cs).length < fuel := by
          rw [List.length_drop]
          omega
        subst hb
        have hb2 := ih (stream.drop cs) (iter + 1) _ (b + (stream.take cs).length)
          st' (by simp) hlt hcs hrun
        obtain ⟨hw, hr, hp, hf, hv⟩ := hb2
        have hmin : ¬ min cs stream.length = 0 := by omega
        refine ⟨?_, ?_, ?_, ?_, ?_⟩
        · rw [hw]
          simp [List.append_assoc]
        · rw [hr]
          rw [natChunksF, if_neg hmin]
          simp [List.length_take, List.length_drop, List.append_assoc]
        · rw [hp]
          rw [progListF, if_neg hmin]
          cases onp
          · simp
          · simp only [if_true, Option.getD_some, List.length_take,
              List.length_drop, List.append_assoc, List.singleton_append,
              List.cons_append, List.nil_append, ite_true]
        · rw [hf]
        · rw [hv]
          simp only [List.length_take, List.length_drop, Video.mk.injEq,
            Option.some.injEq, Option.getD_some, and_true, true_and]
          omega

/-- The recorded progress values are bounded below by the starting
counter and form a non-decreasing chain. -/
theorem progListF_chain (cs fsz : Nat) :
    ∀ fuel br n,
      List.Chain' (fun a b => a ≤ b) ((progListF cs fsz fuel br n).map Prod.fst) ∧
      ∀ x ∈ (progListF cs fsz fuel br n).map Prod.fst, br ≤ x := by
  intro fuel
  induction fuel with
  | zero => intro br n; simp [progListF]
  | succ fuel ih =>
    intro br n
    rw [progListF]
    by_cases h : min cs n = 0
    · rw [if_pos h]; simp
    · rw [if_neg h]
      obtain ⟨ihc, ihb⟩ := ih (br + min cs n) (n - cs)
      constructor
      · rw [List.map_cons, List.chain'_cons']
        refine ⟨?_, ihc⟩
        intro y hy
        have hmem := List.mem_of_mem_head? hy
        have := ihb y hmem
        omega
      · intro x hx
        rw [List.map_cons, List.mem_cons] at hx
        rcases hx with rfl | hx'
        · exact Nat.le_add_right br (min cs n)
        · have := ihb x hx'
          omega

/-- With positive stream length and chunk size, the progress list is
nonempty. -/
theorem progListF_ne_nil (cs fsz : Nat) (fuel br n : Nat)
    (hf : n < fuel) (hcs : 0 < cs) (hn : 0 < n) :
    progListF cs fsz fuel br n ≠ [] := by
  cases fuel with
  | zero => omega
  | succ fuel =>
    rw [progListF]
    rw [if_neg (by omega)]
    exact List.cons_ne_nil _ _

/-- The final progress entry reports exactly the starting counter plus
the whole stream length. -/
theorem progListF_getLast (cs fsz : Nat) :
    ∀ fuel br n, n < fuel → 0 < cs → 0 < n →
      (progListF cs fsz fuel br n).getLast? = some (br + n, fsz) := by
  intro fuel
  induction fuel with
  | zero => intro br n hf; omega
  | succ fuel ih =>
    intro br n hf hcs hn
    rw [progListF]
    rw [if_neg (by omega)]
    by_cases h : n - cs = 0
    · have h0 : progListF cs fsz fuel (br + min cs n) (n - cs) = [] := by
        rw [h]
        cases fuel with
        | zero => rfl
        | succ fuel => rw [progListF]; simp
      rw [h0]
      have : min cs n = n := by omega
      rw [this]
      rfl
    · have htail := ih (br + min cs n) (n - cs) (by omega) hcs (by omega)
      have hne := progListF_ne_nil cs fsz fuel (br + min cs n) (n - cs)
        (by omega) hcs (by omega)
      obtain ⟨hd, tl, heq⟩ := List.exists_cons_of_ne_nil hne
      rw [heq]
      rw [heq] at htail
      rw [List.getLast?_cons_cons, htail]
      have : min cs n + (n - cs) = n := by omega
      rw [Nat.add_assoc, this]

/-- All four exit branches of `Video.download` resolve the destination
the same way. -/
theorem download_resolvedPath (v : Video) (fs : FS) (resp : Response)
    (intr : Option Nat) (path : String) (cs : Nat) (onp onf fo : Bool) :
    (Video.download v fs resp intr path cs onp onf fo).resolvedPath
      = resolveDest fs v path := by
  unfold Video.download
  dsimp only
  split
  · rfl
  · split
    · rfl
    · split <;> rfl

/-- C1: with forceOverwrite false and the resolved destination already
existing as a file, the local download fails with the conflict error
before any network activity (the url is never opened and no read from
the remote locator is performed) and leaves the filesystem, in
particular the existing file, unchanged. -/
theorem c1_conflict_before_network (v : Video) (fs : FS) (resp : Response)
    (intr : Option Nat) (path : String) (cs : Nat) (onp onf : Bool)
    (hfile : fs.isfile (resolveDest fs v path) = true) :
    (Video.download v fs resp intr path cs onp onf false).result
        = some DlError.conflict ∧
    (Video.download v fs resp intr path cs onp onf false).urlOpened = false ∧
    (Video.download v fs resp intr path cs onp onf false).readResults = [] ∧
    (Video.download v fs resp intr path cs onp onf false).fs = fs := by
  unfold Video.download
  dsimp only
  rw [if_pos (by rw [hfile]; rfl)]
  exact ⟨rfl, rfl, rfl, rfl⟩

/-- Witness for C1: a concrete conflicting destination. -/
theorem c1_witness :
    FS.isfile ⟨[], [("clip.mp4", [9])]⟩
        (resolveDest ⟨[], [("clip.mp4", [9])]⟩ vClip "clip.mp4") = true ∧
    (Video.download vClip ⟨[], [("clip.mp4", [9])]⟩
        ⟨[("Content-Length", "4")], [1, 2]⟩ none "clip.mp4" 2 false false
        false).result = some DlError.conflict ∧
    (Video.download vClip ⟨[], [("clip.mp4", [9])]⟩
        ⟨[("Content-Length", "4")], [1, 2]⟩ none "clip.mp4" 2 false false
        false).fs = ⟨[], [("clip.mp4", [9])]⟩ :=
  ⟨by decide,
   (c1_conflict_before_network vClip ⟨[], [("clip.mp4", [9])]⟩
      ⟨[("Content-Length", "4")], [1, 2]⟩ none "clip.mp4" 2 false false
      (by decide)).1,
   (c1_conflict_before_network vClip ⟨[], [("clip.mp4", [9])]⟩
      ⟨[("Content-Length", "4")], [1, 2]⟩ none "clip.mp4" 2 false false
      (by decide)).2.2.2⟩

/-- C5: when the target bucket cannot be located, the object-store
transfer returns the bucket-not-found sentinel (no exception escapes),
never opens the remote locator, never opens a write handle, performs no
reads, and leaves the object store unchanged. -/
theorem c5_bucket_not_found (v : Video) (s3 : S3State) (resp : Response)
    (intr : Option Nat) (bn vd : String) (cs : Nat) (onp onf : Bool)
    (acl : String) (hb : s3.bucketExists = false) :
    (Video.download_s3 v s3 resp intr bn vd cs onp onf acl).result
        = S3Result.bucketNotFound ∧
    (Video.download_s3 v s3 resp intr bn vd cs onp onf acl).urlOpened = false ∧
    (Video.download_s3 v s3 resp intr bn vd cs onp onf acl).writeHandleOpened
        = false ∧
    (Video.download_s3 v s3 resp intr bn vd cs onp onf acl).readResults = [] ∧
    (Video.download_s3 v s3 resp intr bn vd cs onp onf acl).s3 = s3 := by
  unfold Video.download_s3
  dsimp only
  rw [if_pos (by rw [hb]; rfl)]
  exact ⟨rfl, rfl, rfl, rfl, rfl⟩

/-- Witness for C5: a concrete missing bucket. -/
theorem c5_witness :
    (⟨false, []⟩ : S3State).bucketExists = false ∧
    (Video.download_s3 vClip ⟨false, []⟩ ⟨[("Content-Length", "4")], [1, 2]⟩
        none "bkt" "" 2 false false "public-read").result
      = S3Result.bucketNotFound ∧
    (Video.download_s3 vClip ⟨false, []⟩ ⟨[("Content-Length", "4")], [1, 2]⟩
        none "bkt" "" 2 false false "public-read").urlOpened = false :=
  ⟨rfl,
   (c5_bucket_not_found vClip ⟨false, []⟩ ⟨[("Content-Length", "4")], [1, 2]⟩
      none "bkt" "" 2 false false "public-read" rfl).1,
   (c5_bucket_not_found vClip ⟨false, []⟩ ⟨[("Content-Length", "4")], [1, 2]⟩
      none "bkt" "" 2 false false "public-read" rfl).2.1⟩

/-- C10: both transfer operations preserve all nine constructor
attributes of the descriptor on every exit path; the only fields the
transfer writes on the object are the transient byte counter and
buffer. -/
theorem c10_descriptor_frame (v : Video) (fs : FS) (resp : Response)
    (intr : Option Nat) (path : String) (cs : Nat) (onp onf fo : Bool)
    (s3 : S3State) (bn vd acl : String) :
    (Video.download v fs resp intr path cs onp onf fo).video.core = v.core ∧
    (Video.download_s3 v s3 resp intr bn vd cs onp onf acl).video.core
      = v.core := by
  constructor
  · unfold Video.download
    dsimp only
    split
    · rfl
    · split
      · rfl
      · rename_i fsize hcl
        split <;> rename_i st hloop
        all_goals
          have h1 := copyLoop_video_core cs fsize onp onf false
            (resolveDest fs v path) intr (resp.body.length + 1) 0 resp.body
            ⟨{ v with bytes_received_attr := some 0 }, [], [], [], []⟩
        all_goals rw [hloop] at h1
        all_goals exact h1
  · unfold Video.download_s3
    dsimp only
    split
    · rfl
    · split
      · rfl
      · rename_i fsize hcl
        split <;> rename_i st hloop
        all_goals
          have h1 := copyLoop_video_core cs fsize onp onf true
            (if vd ≠ "" then pathJoin vd (v.filename ++ "." ++ v.extension)
              else v.filename ++ "." ++ v.extension) intr
            (resp.body.length + 1) 0 resp.body
            ⟨{ v with bytes_received_attr := some 0 }, [], [], [], []⟩
        all_goals rw [hloop] at h1
        all_goals exact h1

/-- Counterexample to C9: the destination argument a//b does not name a
directory, yet the resolved destination is not the given string used
verbatim: `os.path.normpath` has rewritten it to a/b first. -/
theorem c9_counterexample :
    FS.isdir ⟨[], []⟩ "a//b" = false ∧
    (Video.download vClip ⟨[], []⟩ ⟨[("Content-Length", "3")], [1, 2, 3]⟩
        none "a//b" 4 false false false).resolvedPath = "a/b" ∧
    (Video.download vClip ⟨[], []⟩ ⟨[("Content-Length", "3")], [1, 2, 3]⟩
        none "a//b" 4 false false false).resolvedPath ≠ "a//b" := by
  refine ⟨rfl, ?_, ?_⟩ <;> decide

/-- C9 as amended: the given destination is first normalized with
`os.path.normpath`; when the normalized path is a directory the final
destination is that normalized directory joined with
`filename + dot + extension`, and otherwise the normalized path (not
necessarily the given string verbatim) is used. -/
theorem c9_amended_resolution (v : Video) (fs : FS) (resp : Response)
    (intr : Option Nat) (path : String) (cs : Nat) (onp onf fo : Bool) :
    (Video.download v fs resp intr path cs onp onf fo).resolvedPath
      = (if fs.isdir (normpath path) then
          pathJoin (normpath path) (v.filename ++ "." ++ v.extension)
        else normpath path) := by
  rw [download_resolvedPath]
  rfl

/-- C2: a transfer interrupted while the chunked copy loop is in
progress deletes the partially written destination file or remote
object before re-raising, so no partial output remains at the
destination path or key afterwards. -/
theorem c2_abort_no_partial_output :
    (∀ (v : Video) (fs : FS) (resp : Response) (intr : Option Nat)
        (path : String) (cs : Nat) (onp onf fo : Bool) (out : DlOutcome),
      out = Video.download v fs resp intr path cs onp onf fo →
      out.result = some DlError.interrupted →
      out.fs.files.lookup out.resolvedPath = none) ∧
    (∀ (v : Video) (s3 : S3State) (resp : Response) (intr : Option Nat)
        (bn vd : String) (cs : Nat) (onp onf : Bool) (acl : String)
        (out : S3Outcome),
      out = Video.download_s3 v s3 resp intr bn vd cs onp onf acl →
      out.result = S3Result.interrupted →
      out.s3.objects.lookup out.keyPath = none) := by
  constructor
  · intro v fs resp intr path cs onp onf fo out hout hres
    subst hout
    revert hres
    unfold Video.download
    dsimp only
    split
    · intro hres; simp at hres
    · split
      · intro hres; simp at hres
      · split
        · intro _
          exact removeFile_lookup_self _ _
        · intro hres; simp at hres
  · intro v s3 resp intr bn vd cs onp onf acl out hout hres
    subst hout
    revert hres
    unfold Video.download_s3
    dsimp only
    split
    · intro hres; simp at hres
    · split
      · intro hres; simp at hres
      · split
        · intro _
          exact removeObject_lookup_self _ _
        · intro hres; simp at hres

/-- Witness for C2: concrete interrupted local and object-store
transfers leave nothing at the destination. -/
theorem c2_witness :
    (Video.download vClip ⟨[], []⟩ ⟨[("Content-Length", "4")], [1, 2, 3, 4]⟩
        (some 1) "clip.mp4" 2 false false false).result
      = some DlError.interrupted ∧
    (Video.download vClip ⟨[], []⟩ ⟨[("Content-Length", "4")], [1, 2, 3, 4]⟩
        (some 1) "clip.mp4" 2 false false false).fs.files.lookup
      (Video.download vClip ⟨[], []⟩ ⟨[("Content-Length", "4")], [1, 2, 3, 4]⟩
        (some 1) "clip.mp4" 2 false false false).resolvedPath = none ∧
    (Video.download_s3 vClip ⟨true, [("clip.mp4", [7])]⟩
        ⟨[("Content-Length", "4")], [1, 2, 3, 4]⟩ (some 1) "bkt" "" 2 false
        false "public-read").result = S3Result.interrupted ∧
    (Video.download_s3 vClip ⟨true, [("clip.mp4", [7])]⟩
        ⟨[("Content-Length", "4")], [1, 2, 3, 4]⟩ (some 1) "bkt" "" 2 false
        false "public-read").s3.objects.lookup
      (Video.download_s3 vClip ⟨true, [("clip.mp4", [7])]⟩
        ⟨[("Content-Length", "4")], [1, 2, 3, 4]⟩ (some 1) "bkt" "" 2 false
        false "public-read").keyPath = none :=
  ⟨by decide,
   c2_abort_no_partial_output.1 vClip ⟨[], []⟩
     ⟨[("Content-Length", "4")], [1, 2, 3, 4]⟩ (some 1) "clip.mp4" 2 false
     false false _ rfl (by decide),
   by decide,
   c2_abort_no_partial_output.2 vClip ⟨true, [("clip.mp4", [7])]⟩
     ⟨[("Content-Length", "4")], [1, 2, 3, 4]⟩ (some 1) "bkt" "" 2 false
     false "public-read" _ rfl (by decide)⟩

/-- C3: on stream exhaustion the local download invokes the supplied
finish callback exactly once with the resolved destination path, while
the object-store download never invokes the finish callback on any run,
even when it is supplied. -/
theorem c3_on_finish_asymmetry :
    (∀ (v : Video) (fs : FS) (resp : Response) (intr : Option Nat)
        (path : String) (cs : Nat) (onp fo : Bool) (out : DlOutcome),
      out = Video.download v fs resp intr path cs onp true fo →
      out.result = none →
      out.finishCalls = [out.resolvedPath]) ∧
    (∀ (v : Video) (s3 : S3State) (resp : Response) (intr : Option Nat)
        (bn vd : String) (cs : Nat) (onp onf : Bool) (acl : String),
      (Video.download_s3 v s3 resp intr bn vd cs onp onf acl).finishCalls
        = []) := by
  constructor
  · intro v fs resp intr path cs onp fo out hout hres
    subst hout
    revert hres
    unfold Video.download
    dsimp only
    split
    · intro hres; simp at hres
    · split
      · intro hres; simp at hres
      · rename_i fsize hcl
        split <;> rename_i st hloop
        · intro hres; simp at hres
        · intro _
          have hfin := copyLoop_false_finish cs fsize onp true false
            (resolveDest fs v path) intr (resp.body.length + 1) resp.body 0
            ⟨{ v with bytes_received_attr := some 0 }, [], [], [], []⟩ st
            (Nat.lt_succ_self _) hloop
          simpa using hfin
  · intro v s3 resp intr bn vd cs onp onf acl
    unfold Video.download_s3
    dsimp only
    split
    · rfl
    · split
      · rfl
      · rename_i fsize hcl
        split <;> rename_i st hloop
        all_goals
          have h1 := copyLoop_noop_finish cs fsize onp onf
            (if vd ≠ "" then pathJoin vd (v.filename ++ "." ++ v.extension)
              else v.filename ++ "." ++ v.extension) intr
            (resp.body.length + 1) 0 resp.body
            ⟨{ v with bytes_received_attr := some 0 }, [], [], [], []⟩
        all_goals rw [hloop] at h1
        all_goals exact h1

/-- Witness for C3: a concrete successful local download with the
finish callback supplied, and a concrete object-store download with the
finish callback supplied. -/
theorem c3_witness :
    (Video.download vClip ⟨[], []⟩ ⟨[("Content-Length", "2")], [1, 2]⟩
        none "clip.mp4" 2 false true false).result = none ∧
    (Video.download vClip ⟨[], []⟩ ⟨[("Content-Length", "2")], [1, 2]⟩
        none "clip.mp4" 2 false true false).finishCalls
      = [(Video.download vClip ⟨[], []⟩ ⟨[("Content-Length", "2")], [1, 2]⟩
          none "clip.mp4" 2 false true false).resolvedPath] ∧
    (Video.download_s3 vClip ⟨true, []⟩ ⟨[("Content-Length", "2")], [1, 2]⟩
        none "bkt" "" 2 false true "public-read").finishCalls = [] :=
  ⟨by decide,
   c3_on_finish_asymmetry.1 vClip ⟨[], []⟩
     ⟨[("Content-Length", "2")], [1, 2]⟩ none "clip.mp4" 2 false false _
     rfl (by decide),
   c3_on_finish_asymmetry.2 vClip ⟨true, []⟩
     ⟨[("Content-Length", "2")], [1, 2]⟩ none "bkt" "" 2 false true
     "public-read"⟩

/-- Counterexample to C4: with the content-length key present only in
the capitalization CONTENT-LENGTH, the lookup finds nothing and the
operation crashes (the `int(None)` TypeError) instead of degrading to
byte-count-only progress. -/
theorem c4_counterexample :
    contentLengthRaw [("CONTENT-LENGTH", "5")] = none ∧
    (Video.download vClip ⟨[], []⟩ ⟨[("CONTENT-LENGTH", "5")], [1, 2, 3]⟩
        none "clip.mp4" 2 true true false).result
      = some DlError.sizeCrash := by
  exact ⟨by decide, by decide⟩

/-- C4 as amended: the size hint is looked up under exactly the two
spellings Content-Length and then content-length (the second consulted
when the first is absent or falsy); a key in any other capitalization
is ignored, and when no usable value is found the operation raises from
`int(...)` after opening the url but before any read or write, rather
than degrading; when a usable value is found under either spelling it
becomes the size hint. -/
theorem c4_amended_size_lookup :
    (∀ (k val : String) (m : List (String × String)),
       k ≠ "Content-Length" → k ≠ "content-length" →
       contentLengthRaw ((k, val) :: m) = contentLengthRaw m) ∧
    (∀ (v : Video) (fs : FS) (resp : Response) (intr : Option Nat)
        (path : String) (cs : Nat) (onp onf fo : Bool) (out : DlOutcome),
      out = Video.download v fs resp intr path cs onp onf fo →
      (fs.isfile (resolveDest fs v path) && !fo) = false →
      (contentLengthVal resp.meta = none →
        out.result = some DlError.sizeCrash ∧ out.urlOpened = true ∧
        out.fs = fs ∧ out.readResults = [] ∧ out.progressCalls = []) ∧
      (∀ n, contentLengthVal resp.meta = some n → out.fileSize = some n)) := by
  constructor
  · intro k val m h1 h2
    unfold contentLengthRaw dictGet
    rw [List.reverse_cons, lookup_append_ne _ _ _ _ h1,
      lookup_append_ne _ _ _ _ h2]
  · intro v fs resp intr path cs onp onf fo out hout hcond
    subst hout
    unfold Video.download
    dsimp only
    rw [if_neg (by rw [hcond]; simp)]
    constructor
    · intro hnone
      rw [hnone]
      exact ⟨rfl, rfl, rfl, rfl, rfl⟩
    · intro n hsome
      rw [hsome]
      dsimp only
      split <;> rfl

/-- Witness for C4 as amended: concrete lookups and a concrete run. -/
theorem c4_witness :
    contentLengthRaw [("CONTENT-length", "9"), ("content-length", "7")]
      = some "7" ∧
    (Video.download vClip ⟨[], []⟩ ⟨[("CONTENT-LENGTH", "5")], [1, 2, 3]⟩
        none "clip.mp4" 2 true true false).result
      = some DlError.sizeCrash ∧
    (Video.download vClip ⟨[], []⟩ ⟨[("content-length", "3")], [1, 2, 3]⟩
        none "clip.mp4" 2 true true false).fileSize = some 3 :=
  ⟨by
    rw [c4_amended_size_lookup.1 "CONTENT-length" "9"
      [("content-length", "7")] (by decide) (by decide)]
    decide,
   ((c4_amended_size_lookup.2 vClip ⟨[], []⟩
      ⟨[("CONTENT-LENGTH", "5")], [1, 2, 3]⟩ none "clip.mp4" 2 true true
      false _ rfl (by decide)).1 (by decide)).1,
   (c4_amended_size_lookup.2 vClip ⟨[], []⟩
      ⟨[("content-length", "3")], [1, 2, 3]⟩ none "clip.mp4" 2 true true
      false _ rfl (by decide)).2 3 (by decide)⟩

/-- A boolean string comparison is true exactly when the strings are in
the lexicographic order. -/
theorem pyStrLt_iff (x y : String) : pyStrLt x y = true ↔ x < y := by
  rw [pyStrLt, decide_eq_true_iff]
  exact String.lt_iff_toList_lt.symm

/-- A boolean string comparison is false exactly when the strings are
not in the lexicographic order. -/
theorem pyStrLt_false_iff (x y : String) : pyStrLt x y = false ↔ ¬ x < y := by
  rw [← pyStrLt_iff x y]
  cases pyStrLt x y <;> simp

/-- The descriptor comparison agrees with the lexicographic order of
the rendered sort keys. -/
theorem videoLt_iff (a b : Video) :
    Video.lt a b = true ↔ a.sortKey < b.sortKey := by
  rw [Video.lt, decide_eq_true_iff, pyCmp]
  rcases lt_trichotomy a.sortKey b.sortKey with h | h | h
  · refine iff_of_true ?_ h
    rw [(pyStrLt_iff _ _).mpr h,
      (pyStrLt_false_iff _ _).mpr (lt_asymm h)]
    norm_num
  · refine iff_of_false ?_ (by rw [h]; exact lt_irrefl _)
    rw [(pyStrLt_false_iff _ _).mpr (by rw [h]; exact lt_irrefl _),
      (pyStrLt_false_iff _ _).mpr (by rw [h]; exact lt_irrefl _)]
    norm_num
  · refine iff_of_false ?_ (lt_asymm h)
    rw [(pyStrLt_iff _ _).mpr h,
      (pyStrLt_false_iff _ _).mpr (lt_asymm h)]
    norm_num

/-- C7: the descriptor comparison agrees with lexicographic comparison
of the rendered extension-space-resolution strings, and it is
asymmetric, transitive and total (up to equal sort keys) over all
descriptors. -/
theorem c7_ordering_total (a b c : Video) :
    (Video.lt a b = true ↔ a.sortKey < b.sortKey) ∧
    (Video.lt a b = true → Video.lt b a = false) ∧
    (Video.lt a b = true → Video.lt b c = true → Video.lt a c = true) ∧
    (Video.lt a b = true ∨ Video.lt b a = true ∨ a.sortKey = b.sortKey) := by
  refine ⟨videoLt_iff a b, ?_, ?_, ?_⟩
  · intro h
    rw [videoLt_iff] at h
    cases hba : Video.lt b a
    · rfl
    · exact absurd ((videoLt_iff b a).mp hba) (lt_asymm h)
  · intro h1 h2
    rw [videoLt_iff] at h1 h2 ⊢
    exact lt_trans h1 h2
  · rcases lt_trichotomy a.sortKey b.sortKey with h | h | h
    · exact Or.inl ((videoLt_iff a b).mpr h)
    · exact Or.inr (Or.inr h)
    · exact Or.inr (Or.inl ((videoLt_iff b a).mpr h))

/-- Witness for C7: concrete descriptors in strictly increasing key
order. -/
theorem c7_witness :
    Video.lt vAvi vMp4 = true ∧ Video.lt vMp4 vAvi = false ∧
    Video.lt vAvi vWebm = true :=
  ⟨by decide,
   (c7_ordering_total vAvi vMp4 vWebm).2.1 (by decide),
   (c7_ordering_total vAvi vMp4 vWebm).2.2.1 (by decide) (by decide)⟩

/-- A local download that ends in normal completion (with positive
chunk size) took the no-conflict branch, found a size hint, wrote the
whole stream to the resolved destination, recorded the chunk reads and
the running progress counts, and invoked the finish callback once when
supplied. -/
theorem download_success_spec (v : Video) (fs : FS) (resp : Response)
    (intr : Option Nat) (path : String) (cs : Nat) (onp onf fo : Bool)
    (out : DlOutcome) (hout : out = Video.download v fs resp intr path cs onp onf fo)
    (hcs : 0 < cs) (hres : out.result = none) :
    ∃ n, contentLengthVal resp.meta = some n ∧
      out.fileSize = some n ∧
      out.resolvedPath = resolveDest fs v path ∧
      out.fs = fs.setFile (resolveDest fs v path) resp.body ∧
      out.readResults = natChunksF cs (resp.body.length + 1) resp.body.length ∧
      out.progressCalls
        = (if onp then
            progListF cs n (resp.body.length + 1) 0 resp.body.length
          else []) ∧
      out.finishCalls = (if onf then [resolveDest fs v path] else []) ∧
      out.video.bytes_received_attr = some resp.body.length := by
  subst hout
  revert hres
  unfold Video.download
  dsimp only
  split
  · intro hres; simp at hres
  · split
    · intro hres; simp at hres
    · rename_i fsize hcl
      split <;> rename_i st hloop
      · intro hres; simp at hres
      · intro _
        refine ⟨fsize, hcl, rfl, rfl, ?_, ?_, ?_, ?_, ?_⟩
        · obtain ⟨hw, _, _, _, _⟩ := copyLoop_spec cs fsize onp onf false
            (resolveDest fs v path) intr (resp.body.length + 1) resp.body 0
            ⟨{ v with bytes_received_attr := some 0 }, [], [], [], []⟩ 0 st
            rfl (Nat.lt_succ_self _) hcs hloop
          rw [hw]
          rfl
        · obtain ⟨_, hr, _, _, _⟩ := copyLoop_spec cs fsize onp onf false
            (resolveDest fs v path) intr (resp.body.length + 1) resp.body 0
            ⟨{ v with bytes_received_attr := some 0 }, [], [], [], []⟩ 0 st
            rfl (Nat.lt_succ_self _) hcs hloop
          rw [hr]
          rfl
        · obtain ⟨_, _, hp, _, _⟩ := copyLoop_spec cs fsize onp onf false
            (resolveDest fs v path) intr (resp.body.length + 1) resp.body 0
            ⟨{ v with bytes_received_attr := some 0 }, [], [], [], []⟩ 0 st
            rfl (Nat.lt_succ_self _) hcs hloop
          rw [hp]
          simp
        · obtain ⟨_, _, _, hf, _⟩ := copyLoop_spec cs fsize onp onf false
            (resolveDest fs v path) intr (resp.body.length + 1) resp.body 0
            ⟨{ v with bytes_received_attr := some 0 }, [], [], [], []⟩ 0 st
            rfl (Nat.lt_succ_self _) hcs hloop
          rw [hf]
          simp
        · obtain ⟨_, _, _, _, hv⟩ := copyLoop_spec cs fsize onp onf false
            (resolveDest fs v path) intr (resp.body.length + 1) resp.body 0
            ⟨{ v with bytes_received_attr := some 0 }, [], [], [], []⟩ 0 st
            rfl (Nat.lt_succ_self _) hcs hloop
          rw [hv]
          simp

/-- The progress list on an empty stream is empty. -/
theorem progListF_zero (cs fsz fuel br : Nat) :
    progListF cs fsz fuel br 0 = [] := by
  cases fuel with
  | zero => rfl
  | succ fuel => rw [progListF]; simp

/-- Counterexample to C6: a present size hint of 2 with a stream that
actually delivers one byte gives a final progress value of 1, which
differs from the advertised total size; the code never checks the hint
against the bytes received. -/
theorem c6_counterexample :
    (Video.download vClip ⟨[], []⟩ ⟨[("Content-Length", "2")], [7]⟩
        none "clip.mp4" 8192 true false false).result = none ∧
    (Video.download vClip ⟨[], []⟩ ⟨[("Content-Length", "2")], [7]⟩
        none "clip.mp4" 8192 true false false).fileSize = some 2 ∧
    (Video.download vClip ⟨[], []⟩ ⟨[("Content-Length", "2")], [7]⟩
        none "clip.mp4" 8192 true false false).progressCalls.getLast?
      = some (1, 2) ∧
    (1 : Nat) ≠ 2 := by
  exact ⟨by decide, by decide, by decide, by decide⟩

/-- C6 as amended: within one transfer the byte counter starts at zero
and advances by each non-empty chunk, so successive progress values are
non-decreasing; the final progress value equals the total number of
bytes written to the sink; and it equals the advertised total size
exactly when the stream actually delivered that many bytes. -/
theorem c6_amended_progress (v : Video) (fs : FS) (resp : Response)
    (intr : Option Nat) (path : String) (cs : Nat) (onp onf fo : Bool)
    (out : DlOutcome) (hout : out = Video.download v fs resp intr path cs onp onf fo)
    (hcs : 0 < cs) (hres : out.result = none) :
    List.Chain' (fun a b => a ≤ b) (out.progressCalls.map Prod.fst) ∧
    out.fs.files.lookup out.resolvedPath = some resp.body ∧
    out.video.bytes_received_attr = some resp.body.length ∧
    (∀ p, out.progressCalls.getLast? = some p → p.1 = resp.body.length) ∧
    (∀ n, out.fileSize = some n → resp.body.length = n →
      ∀ p, out.progressCalls.getLast? = some p → p.1 = n) := by
  obtain ⟨n, hcl, hfsz, hrp, hfs, hrr, hpc, hfc, hbr⟩ :=
    download_success_spec v fs resp intr path cs onp onf fo out hout hcs hres
  have hlast : ∀ p, out.progressCalls.getLast? = some p →
      p.1 = resp.body.length := by
    intro p hp
    rw [hpc] at hp
    cases onp with
    | false => simp at hp
    | true =>
      rw [if_pos rfl] at hp
      cases hlen : resp.body.length with
      | zero =>
        rw [hlen, progListF_zero] at hp
        simp at hp
      | succ m =>
        rw [hlen] at hp
        rw [progListF_getLast cs n (m + 1 + 1) 0 (m + 1)
          (by omega) hcs (by omega)] at hp
        · injection hp with hp
          subst hp
          simp
  refine ⟨?_, ?_, hbr, hlast, ?_⟩
  · rw [hpc]
    cases onp with
    | false => simp
    | true =>
      rw [if_pos rfl]
      exact (progListF_chain cs n (resp.body.length + 1) 0 resp.body.length).1
  · rw [hfs, hrp]
    exact setFile_lookup_self fs (resolveDest fs v path) resp.body
  · intro m hm heq p hp
    rw [← heq]
    exact hlast p hp

/-- Witness for C6 as amended: a concrete two-chunk transfer. -/
theorem c6_witness :
    (0 : Nat) < 2 ∧
    (Video.download vClip ⟨[], []⟩ ⟨[("Content-Length", "3")], [5, 6, 7]⟩
        none "clip.mp4" 2 true false false).result = none ∧
    List.Chain' (fun a b => a ≤ b)
      ((Video.download vClip ⟨[], []⟩ ⟨[("Content-Length", "3")], [5, 6, 7]⟩
          none "clip.mp4" 2 true false false).progressCalls.map Prod.fst) ∧
    (∀ p, (Video.download vClip ⟨[], []⟩
        ⟨[("Content-Length", "3")], [5, 6, 7]⟩
        none "clip.mp4" 2 true false false).progressCalls.getLast? = some p →
      p.1 = ([5, 6, 7] : Bytes).length) :=
  ⟨by decide, by decide,
   (c6_amended_progress vClip ⟨[], []⟩ ⟨[("Content-Length", "3")], [5, 6, 7]⟩
      none "clip.mp4" 2 true false false _ rfl (by decide) (by decide)).1,
   (c6_amended_progress vClip ⟨[], []⟩ ⟨[("Content-Length", "3")], [5, 6, 7]⟩
      none "clip.mp4" 2 true false false _ rfl (by decide) (by decide)).2.2.2.1⟩

/-- Without an injected interrupt, a local download that passes the
conflict check and finds a size hint completes normally. -/
theorem download_result_none (v : Video) (fs : FS) (resp : Response)
    (path : String) (cs : Nat) (onp onf fo : Bool)
    (hc : (fs.isfile (resolveDest fs v path) && !fo) = false)
    (n : Nat) (hcl : contentLengthVal resp.meta = some n) :
    (Video.download v fs resp none path cs onp onf fo).result = none := by
  unfold Video.download
  dsimp only
  rw [if_neg (by rw [hc]; simp), hcl]
  dsimp only
  split <;> rename_i st hloop
  · have h2 := copyLoop_intr_none cs n onp onf false (resolveDest fs v path)
      (resp.body.length + 1) 0 resp.body
      ⟨{ v with bytes_received_attr := some 0 }, [], [], [], []⟩
    rw [hloop] at h2
    simp at h2
  · rfl

/-- Counterexample to C8: in the 20000-byte scenario the loop performs
four reads, not exactly three; the three data reads are followed by the
zero-byte read that signals exhaustion. -/
theorem c8_counterexample :
    (Video.download vClip fsTmpOut respBig none "/tmp/out" 8192 false true
        false).readResults = [8192, 8192, 3616, 0] ∧
    (Video.download vClip fsTmpOut respBig none "/tmp/out" 8192 false true
        false).readResults.length ≠ 3 := by
  have hres := download_result_none vClip fsTmpOut respBig "/tmp/out" 8192
    false true false (by decide) 20000 (by decide)
  obtain ⟨n, hcl, hfsz, hrp, hfs, hrr, hpc, hfc, hbr⟩ :=
    download_success_spec vClip fsTmpOut respBig none "/tmp/out" 8192 false
      true false _ rfl (by decide) hres
  have hlen : respBig.body.length = 20000 :=
    List.length_replicate 20000 0
  rw [hlen] at hrr
  rw [hrr]
  constructor
  · decide
  · decide

/-- C8 as amended: in the 20000-byte scenario the loop performs four
reads returning 8192, 8192, 3616 and finally 0 bytes (the empty read
signalling exhaustion), writes the file /tmp/out/clip.mp4 containing
exactly the 20000 streamed bytes, and invokes the finish callback
exactly once with that path. -/
theorem c8_amended_scenario :
    (Video.download vClip fsTmpOut respBig none "/tmp/out" 8192 false true
        false).resolvedPath = "/tmp/out/clip.mp4" ∧
    (Video.download vClip fsTmpOut respBig none "/tmp/out" 8192 false true
        false).readResults = [8192, 8192, 3616, 0] ∧
    (Video.download vClip fsTmpOut respBig none "/tmp/out" 8192 false true
        false).fs.files.lookup "/tmp/out/clip.mp4"
      = some (List.replicate 20000 0) ∧
    (List.replicate 20000 (0 : Nat)).length = 20000 ∧
    (Video.download vClip fsTmpOut respBig none "/tmp/out" 8192 false true
        false).finishCalls = ["/tmp/out/clip.mp4"] := by
  have hres := download_result_none vClip fsTmpOut respBig "/tmp/out" 8192
    false true false (by decide) 20000 (by decide)
  obtain ⟨n, hcl, hfsz, hrp, hfs, hrr, hpc, hfc, hbr⟩ :=
    download_success_spec vClip fsTmpOut respBig none "/tmp/out" 8192 false
      true false _ rfl (by decide) hres
  have hlen : respBig.body.length = 20000 :=
    List.length_replicate 20000 0
  rw [hlen] at hrr
  have hdest : resolveDest fsTmpOut vClip "/tmp/out" = "/tmp/out/clip.mp4" := by
    decide
  refine ⟨?_, ?_, ?_, ?_, ?_⟩
  · rw [hrp, hdest]
  · rw [hrr]; decide
  · rw [hfs, hdest]
    exact setFile_lookup_self fsTmpOut "/tmp/out/clip.mp4" respBig.body
  · exact List.length_replicate 20000 0
  · rw [hfc, if_pos rfl, hdest]

end PyTube
